import Mathlib

/-!
Verification development for the cookie-aware fetch subsystem
(src/src/cookie_fetch.rs of tauri-plugin-cookie-fetch).

The shallow embedding translates the Rust source into Lean:
pure data types become structures and inductives, the async `fetch`
command becomes a state-passing function over the acquired client's
state (cookie jar + redirect-policy slot), and external collaborators
(URL parsing, jar insertion, the HTTP transport) become explicit
functional parameters gathered in an `Env` record.
-/

namespace CookieFetch

/-- A cookie stored in the jar: the jar maps (domain, path, name) to a
value (src/src/cookie_fetch.rs uses the external reqwest_cookie_store jar;
only name/value are ever read back, via iter_any). -/
structure Cookie where
  name : String
  value : String
  domain : String
  path : String
deriving DecidableEq, Repr

/-- Modelled from the spec: RedirectPolicy lives in the missing
cookie_client module; per spec section 3 it is a variant of
Follow-none and Follow-limited(max-hops). -/
inductive RedirectPolicy where
  | none : RedirectPolicy
  | limited : Nat → RedirectPolicy
deriving DecidableEq, Repr

/-- The caller-facing redirect override (enum Redirect in the source). -/
inductive Redirect where
  | none : Redirect
  | limited : Nat → Redirect
deriving DecidableEq, Repr

/-- Response decoding mode (enum PayloadType in the source). -/
inductive PayloadType where
  | binary : PayloadType
  | text : PayloadType
  | discard : PayloadType
deriving DecidableEq, Repr

/-- Request/response body (enum Body in the source); bytes are modelled
as a list of naturals below 256. -/
inductive Body where
  | binary : List Nat → Body
  | text : String → Body
deriving DecidableEq, Repr

/-- Caller-supplied options (struct FetchOptions in the source).
The HTTP method is modelled as its string name. -/
structure FetchOptions where
  responseType : PayloadType
  method : String
  headers : Option (List (String × String))
  cookies : Option (List (String × String))
  redirect : Option Redirect
  body : Option Body
deriving DecidableEq, Repr

/-- fn default_method in the source: the serde default for a missing
method field is GET. -/
def default_method : String := "GET"

/-- The caller-facing response (struct Response in the source). -/
structure Response where
  url : String
  status : Nat
  headers : List (String × String)
  cookies : List (String × String)
  body : Option Body
deriving DecidableEq, Repr

/-- The caller-facing error (struct Error in the source): an optional
URL context and a human-readable message. -/
structure Error where
  url : Option String
  message : String
deriving DecidableEq, Repr

/-- A transport-layer failure (reqwest::Error in the source): it may
know the offending URL and carries a description. -/
structure TransportError where
  url : Option String
  message : String
deriving DecidableEq, Repr

/-- impl Error, fn from (reqwest::Error -> Error): the error's URL if
known, and its description as the message. -/
def Error.fromTransport (e : TransportError) : Error :=
  ⟨e.url, e.message⟩

/-- impl Error, fn from_std_error: no URL context, the description as
the message. -/
def Error.from_std_error (msg : String) : Error :=
  ⟨Option.none, msg⟩

/-- One transport-level HTTP response (reqwest::Response in the source).
Reading the body can itself fail, so the outcomes of res.bytes() and
res.text() are carried as Except values consulted only when the
corresponding decoding mode asks for them. -/
structure HttpResp where
  url : String
  status : Nat
  headers : List (String × String)
  bytesResult : Except TransportError (List Nat)
  textResult : Except TransportError String
deriving Repr

/-- An outbound request as assembled by fetch (RequestBuilder in the
source): method, parsed URL, optional headers, optional body. -/
structure Request where
  method : String
  url : String
  headers : Option (List (String × String))
  body : Option Body
deriving DecidableEq, Repr

/-- The mutable state of one pooled client: its shared cookie jar and
its redirect-policy slot (CookieClient in the missing cookie_client
module; its state is what fetch reads and writes through
client.cookie_store() and client.redirect_policy()). -/
structure ClientState where
  jar : List Cookie
  policy : RedirectPolicy
deriving DecidableEq, Repr

/-- The external collaborators fetch calls into: URL parsing
(reqwest::Url::parse), raw-cookie insertion into the jar
(CookieStore::insert_raw, validating against the URL and fallible),
and the per-hop HTTP transport (request hop number to outcome). -/
structure Env where
  parseUrl : String → Except String String
  insertRaw : List Cookie → String → String → String → Except String (List Cookie)
  trans : Request → Nat → Except TransportError HttpResp

/-- The cookie-injection loop of fetch (source lines 107-115): insert
each (name, value) pair in turn; on the first failing insertion stop
and report the error, keeping the jar as mutated so far. -/
def injectCookies (insertRaw : List Cookie → String → String → String → Except String (List Cookie))
    (jar : List Cookie) (url : String) :
    List (String × String) → Except (List Cookie × String) (List Cookie)
  | [] => Except.ok jar
  | (name, value) :: rest =>
    match insertRaw jar name value url with
    | Except.error msg => Except.error (jar, msg)
    | Except.ok jar' => injectCookies insertRaw jar' url rest

/-- The `if let Some(cookies) = options.cookies` guard around the
injection loop: absent cookies leave the jar untouched. -/
def injectResult (insertRaw : List Cookie → String → String → String → Except String (List Cookie))
    (jar : List Cookie) (url : String) :
    Option (List (String × String)) → Except (List Cookie × String) (List Cookie)
  | Option.none => Except.ok jar
  | Option.some cs => injectCookies insertRaw jar url cs

/-- The redirect-override write of fetch (source lines 117-123):
Redirect::None sets RedirectPolicy::none(), Redirect::Limited sets
RedirectPolicy::limited(max). -/
def interpRedirect : Redirect → RedirectPolicy
  | Redirect.none => RedirectPolicy.none
  | Redirect.limited max => RedirectPolicy.limited max

/-- The policy the request is sent under: the override if the caller
supplied one, otherwise whatever the client's slot already holds
(fetch only writes the slot inside `if let Some(policy) = options.redirect`). -/
def fetchPolicy (st : ClientState) (options : FetchOptions) : RedirectPolicy :=
  match options.redirect with
  | Option.none => st.policy
  | Option.some r => interpRedirect r

/-- The request fetch builds for explicit options (source lines 125-141). -/
def fetchReq (options : FetchOptions) (purl : String) : Request :=
  ⟨options.method, purl, options.headers, options.body⟩

/-- Modelled from the spec: CookieClient::send lives in the missing
cookie_client module. Per spec sections 4.2 and 4.4: issue the request;
on a redirect (3xx) response consult the policy — Follow-none returns
the redirect response itself as final; Follow-limited(max) follows while
the hop count stays below max and fails with a redirect-limit error once
the ceiling is crossed. The per-hop transport outcome is the oracle
`trans req hop`; `remaining` counts the hops the policy still allows. -/
def sendHops (trans : Request → Nat → Except TransportError HttpResp)
    (policy : RedirectPolicy) (req : Request) :
    Nat → Nat → Except TransportError HttpResp
  | remaining, hop =>
    match trans req hop with
    | Except.error e => Except.error e
    | Except.ok r =>
      if 300 ≤ r.status ∧ r.status ≤ 399 then
        match policy with
        | RedirectPolicy.none => Except.ok r
        | RedirectPolicy.limited _ =>
          match remaining with
          | 0 => Except.error ⟨Option.some r.url, "redirect limit exceeded"⟩
          | Nat.succ rem => sendHops trans policy req rem (hop + 1)
      else Except.ok r

/-- Modelled from the spec: the whole exchange, hop 0 first, with the
hop budget given by the current policy. -/
def send (trans : Request → Nat → Except TransportError HttpResp)
    (policy : RedirectPolicy) (req : Request) : Except TransportError HttpResp :=
  sendHops trans policy req
    (match policy with
     | RedirectPolicy.none => 0
     | RedirectPolicy.limited max => max)
    0

/-- fn proxy (source lines 146-187): await the exchange outcome; on
failure map it through Error::from; on success snapshot the entire jar
via iter_any as (name, value) pairs, then decode the body per mode —
binary reads raw bytes, text decodes to a string (either read can
fail, mapped through Error::from), discard materializes no body. -/
def proxy (jar : List Cookie) (responseType : PayloadType)
    (outcome : Except TransportError HttpResp) : Except Error Response :=
  match outcome with
  | Except.error e => Except.error (Error.fromTransport e)
  | Except.ok res =>
    let cookies := jar.map (fun c => (c.name, c.value))
    match responseType with
    | PayloadType.binary =>
      match res.bytesResult with
      | Except.ok v => Except.ok ⟨res.url, res.status, res.headers, cookies, Option.some (Body.binary v)⟩
      | Except.error e => Except.error (Error.fromTransport e)
    | PayloadType.text =>
      match res.textResult with
      | Except.ok v => Except.ok ⟨res.url, res.status, res.headers, cookies, Option.some (Body.text v)⟩
      | Except.error e => Except.error (Error.fromTransport e)
    | PayloadType.discard =>
      Except.ok ⟨res.url, res.status, res.headers, cookies, Option.none⟩

/-- fn fetch (source lines 84-144), as a function of the acquired
client's state: parse the URL (failure reported via from_std_error,
before anything else happens); with options absent, send a GET in
binary mode with no overrides; otherwise inject explicit cookies
(stopping at the first failure), apply the redirect override if any,
build the request and hand it to proxy. Returns the client state as
left behind for the next holder together with the caller-facing
outcome. -/
def fetch (env : Env) (st : ClientState) (url : String)
    (options : Option FetchOptions) : ClientState × Except Error Response :=
  match env.parseUrl url with
  | Except.error msg => (st, Except.error (Error.from_std_error msg))
  | Except.ok purl =>
    match options with
    | Option.none =>
      (st, proxy st.jar PayloadType.binary
        (send env.trans st.policy ⟨"GET", purl, Option.none, Option.none⟩))
    | Option.some options =>
      match injectResult env.insertRaw st.jar purl options.cookies with
      | Except.error (jar', msg) =>
        (⟨jar', st.policy⟩, Except.error (Error.from_std_error msg))
      | Except.ok jar' =>
        let policy := fetchPolicy st options
        (⟨jar', policy⟩,
          proxy jar' options.responseType (send env.trans policy (fetchReq options purl)))

/-- Modelled from the spec: CookieClientPool lives in the missing
cookie_client module. Per spec sections 4.1 and 9 it is a free list of
clients plus a FIFO wait queue; `held` records which caller currently
holds which client. Clients and callers are identified by naturals. -/
structure PoolState where
  free : List Nat
  waiting : List Nat
  held : List (Nat × Nat)
deriving DecidableEq, Repr

/-- Modelled from the spec: acquisition (pool.get). A free client is
handed to the caller exclusively; with none free the caller suspends,
appended at the tail of the arrival-order wait queue. -/
def acquireStep (s : PoolState) (caller : Nat) : PoolState :=
  match s.free with
  | [] => ⟨[], s.waiting ++ [caller], s.held⟩
  | c :: rest => ⟨rest, s.waiting, (caller, c) :: s.held⟩

/-- Remove the given holder's entry from the held list, returning the
client it held and the remaining entries in order. -/
def removeHolder : List (Nat × Nat) → Nat → Option (Nat × List (Nat × Nat))
  | [], _ => Option.none
  | (h, c) :: rest, caller =>
    if h = caller then Option.some (c, rest)
    else
      match removeHolder rest caller with
      | Option.none => Option.none
      | Option.some p => Option.some (p.1, (h, c) :: p.2)

/-- Modelled from the spec: release (automatic when the holder's scope
ends). The released client goes to the first waiter in arrival order
when one is suspended, otherwise back to the free list. -/
def releaseStep (s : PoolState) (caller : Nat) : PoolState :=
  match removeHolder s.held caller with
  | Option.none => s
  | Option.some (c, held') =>
    match s.waiting with
    | [] => ⟨c :: s.free, [], held'⟩
    | w :: ws => ⟨s.free, ws, (w, c) :: held'⟩

/-- Pool sanity: no client appears twice among held-out and free
clients, and no caller appears twice among holders and waiters. -/
def poolWF (s : PoolState) : Prop :=
  (s.held.map Prod.snd ++ s.free).Nodup ∧
  (s.held.map Prod.fst ++ s.waiting).Nodup

/-- The read used by proxy for the requested decoding mode succeeds
(trivially so for discard, which reads nothing). -/
def readOk : PayloadType → HttpResp → Prop
  | PayloadType.binary, r => ∃ v, r.bytesResult = Except.ok v
  | PayloadType.text, r => ∃ s, r.textResult = Except.ok s
  | PayloadType.discard, _ => True

/-! ## Unfolding lemmas for the fetch paths -/

theorem fetch_none_eq (env : Env) (st : ClientState) (url purl : String)
    (hp : env.parseUrl url = Except.ok purl) :
    fetch env st url Option.none =
      (st, proxy st.jar PayloadType.binary
        (send env.trans st.policy ⟨"GET", purl, Option.none, Option.none⟩)) := by
  simp only [fetch, hp]

theorem fetch_some_eq (env : Env) (st : ClientState) (url purl : String)
    (opts : FetchOptions) (jar' : List Cookie)
    (hp : env.parseUrl url = Except.ok purl)
    (hi : injectResult env.insertRaw st.jar purl opts.cookies = Except.ok jar') :
    fetch env st url (Option.some opts) =
      (⟨jar', fetchPolicy st opts⟩,
        proxy jar' opts.responseType
          (send env.trans (fetchPolicy st opts) (fetchReq opts purl))) := by
  simp only [fetch, hp, hi]

theorem fetch_inject_error_eq (env : Env) (st : ClientState) (url purl : String)
    (opts : FetchOptions) (jar' : List Cookie) (msg : String)
    (hp : env.parseUrl url = Except.ok purl)
    (hi : injectResult env.insertRaw st.jar purl opts.cookies = Except.error (jar', msg)) :
    fetch env st url (Option.some opts) =
      (⟨jar', st.policy⟩, Except.error ⟨Option.none, msg⟩) := by
  simp only [fetch, hp, hi, Error.from_std_error]

/-! ## Lemmas about proxy -/

theorem proxy_ok_cookies (jar : List Cookie) (rt : PayloadType)
    (out : Except TransportError HttpResp) (resp : Response)
    (h : proxy jar rt out = Except.ok resp) :
    resp.cookies = jar.map (fun c => (c.name, c.value)) := by
  cases out with
  | error e => simp [proxy, Error.fromTransport] at h
  | ok res =>
    cases rt with
    | binary =>
      cases hb : res.bytesResult with
      | ok v =>
        simp only [proxy, hb] at h
        cases h
        rfl
      | error e => simp [proxy, hb, Error.fromTransport] at h
    | text =>
      cases ht : res.textResult with
      | ok v =>
        simp only [proxy, ht] at h
        cases h
        rfl
      | error e => simp [proxy, ht, Error.fromTransport] at h
    | discard =>
      simp only [proxy] at h
      cases h
      rfl

theorem proxy_discard_no_body (jar : List Cookie)
    (out : Except TransportError HttpResp) (resp : Response)
    (h : proxy jar PayloadType.discard out = Except.ok resp) :
    resp.body = Option.none := by
  cases out with
  | error e => simp [proxy, Error.fromTransport] at h
  | ok res =>
    simp only [proxy] at h
    cases h
    rfl

theorem proxy_error_eq (jar : List Cookie) (rt : PayloadType) (e : TransportError) :
    proxy jar rt (Except.error e) = Except.error ⟨e.url, e.message⟩ := rfl

theorem proxy_text_ok (jar : List Cookie) (r : HttpResp) (s : String)
    (hs : r.textResult = Except.ok s) :
    proxy jar PayloadType.text (Except.ok r) =
      Except.ok ⟨r.url, r.status, r.headers,
        jar.map (fun c => (c.name, c.value)), Option.some (Body.text s)⟩ := by
  simp only [proxy, hs]

theorem proxy_text_error (jar : List Cookie) (r : HttpResp) (e : TransportError)
    (he : r.textResult = Except.error e) :
    proxy jar PayloadType.text (Except.ok r) = Except.error ⟨e.url, e.message⟩ := by
  simp only [proxy, he, Error.fromTransport]

theorem proxy_binary_ok (jar : List Cookie) (r : HttpResp) (v : List Nat)
    (hv : r.bytesResult = Except.ok v) :
    proxy jar PayloadType.binary (Except.ok r) =
      Except.ok ⟨r.url, r.status, r.headers,
        jar.map (fun c => (c.name, c.value)), Option.some (Body.binary v)⟩ := by
  simp only [proxy, hv]

theorem proxy_discard_ok (jar : List Cookie) (r : HttpResp) :
    proxy jar PayloadType.discard (Except.ok r) =
      Except.ok ⟨r.url, r.status, r.headers,
        jar.map (fun c => (c.name, c.value)), Option.none⟩ := by
  simp only [proxy]

/-- When the injection loop fails, the jar it reports is exactly the one
obtained by applying the successful prefix of insertions, and the entry it
stopped at is the one whose insertion failed. -/
theorem injectCookies_error_split
    (insertRaw : List Cookie → String → String → String → Except String (List Cookie))
    (url : String) :
    ∀ (cs : List (String × String)) (jar jar' : List Cookie) (msg : String),
      injectCookies insertRaw jar url cs = Except.error (jar', msg) →
      ∃ k, ∃ hk : k < cs.length,
        injectCookies insertRaw jar url (cs.take k) = Except.ok jar' ∧
        insertRaw jar' (cs.get ⟨k, hk⟩).1 (cs.get ⟨k, hk⟩).2 url = Except.error msg
  | [], jar, jar', msg, h => by simp [injectCookies] at h
  | (n, v) :: rest, jar, jar', msg, h => by
    cases hins : insertRaw jar n v url with
    | error m =>
      simp only [injectCookies, hins] at h
      injection h with hpair
      injection hpair with hj hm
      subst hj
      subst hm
      exact ⟨0, by simp, by simp [injectCookies], by simpa using hins⟩
    | ok jar₂ =>
      simp only [injectCookies, hins] at h
      obtain ⟨k, hk, h1, h2⟩ := injectCookies_error_split insertRaw url rest jar₂ jar' msg h
      refine ⟨k + 1, by simpa using Nat.succ_lt_succ hk, ?_, ?_⟩
      · simpa [injectCookies, hins] using h1
      · simpa using h2

/-! ## A concrete environment for exercising the paths -/

/-- A concrete URL parser: one distinguished malformed input, everything
else accepted verbatim. -/
def wParse : String → Except String String :=
  fun s =>
    if s = "nota url" then Except.error "relative URL without a base"
    else Except.ok s

/-- A concrete jar-insertion oracle: the name "bad" is rejected, any
other pair is appended with fixed attributes. -/
def wInsert : List Cookie → String → String → String → Except String (List Cookie) :=
  fun jar name value _u =>
    if name = "bad" then Except.error "cookie domain mismatch"
    else Except.ok (jar ++ [⟨name, value, "example.com", "/"⟩])

/-- A concrete plain 200 response with readable body. -/
def wResp : HttpResp :=
  ⟨"http://e/", 200, [], Except.ok [104, 105], Except.ok "hi"⟩

/-- A concrete transport that always answers with wResp. -/
def wTrans : Request → Nat → Except TransportError HttpResp :=
  fun _r _h => Except.ok wResp

/-- The concrete environment assembled from the oracles above. -/
def wEnv : Env := ⟨wParse, wInsert, wTrans⟩

/-- A concrete jar holding one cookie whose domain is unrelated to any
requested URL. -/
def wJar : List Cookie := [⟨"sid", "42", "other.example", "/"⟩]

/-- Concrete options selecting the discard decoding mode. -/
def wOptsDiscard : FetchOptions :=
  ⟨PayloadType.discard, "GET", Option.none, Option.none, Option.none, Option.none⟩

/-- Concrete options selecting the binary decoding mode. -/
def wOptsBin : FetchOptions :=
  ⟨PayloadType.binary, "GET", Option.none, Option.none, Option.none, Option.none⟩

/-- Concrete options selecting the text decoding mode. -/
def wOptsText : FetchOptions :=
  ⟨PayloadType.text, "GET", Option.none, Option.none, Option.none, Option.none⟩

/-- Concrete options injecting three cookies, the second of which the
insertion oracle rejects. -/
def wOptsInject : FetchOptions :=
  ⟨PayloadType.binary, "GET", Option.none,
    Option.some [("good", "1"), ("bad", "2"), ("also", "3")],
    Option.none, Option.none⟩

/-- A concrete transport failure. -/
def wErr : TransportError := ⟨Option.some "http://e/", "connection refused"⟩

/-- A transport that always fails with wErr. -/
def wTransFail : Request → Nat → Except TransportError HttpResp :=
  fun _r _h => Except.error wErr

/-- The concrete environment whose transport fails. -/
def wEnvFail : Env := ⟨wParse, wInsert, wTransFail⟩

/-- A concrete text-decoding failure. -/
def wDecodeErr : TransportError := ⟨Option.some "http://e/", "invalid utf-8"⟩

/-- A concrete response whose body bytes are readable but do not decode
as text. -/
def wRespBad : HttpResp :=
  ⟨"http://e/", 200, [], Except.ok [255], Except.error wDecodeErr⟩

/-- A transport that always answers with wRespBad. -/
def wTransBad : Request → Nat → Except TransportError HttpResp :=
  fun _r _h => Except.ok wRespBad

/-- The concrete environment whose responses fail text decoding. -/
def wEnvBad : Env := ⟨wParse, wInsert, wTransBad⟩

/-- A concrete 302 redirect response. -/
def wResp3xx : HttpResp :=
  ⟨"http://e/", 302, [("location", "http://f/")], Except.ok [], Except.ok ""⟩

/-- A transport that always answers with the redirect wResp3xx. -/
def wTrans3 : Request → Nat → Except TransportError HttpResp :=
  fun _r _h => Except.ok wResp3xx

/-- The concrete environment whose server replies with a redirect. -/
def wEnv3 : Env := ⟨wParse, wInsert, wTrans3⟩

/-- Concrete options selecting the follow-none redirect override. -/
def wOptsNoRedirect : FetchOptions :=
  ⟨PayloadType.discard, "GET", Option.none, Option.none,
    Option.some Redirect.none, Option.none⟩

/-! ## Claims -/

/-- Claim C4: for every fetch whose input URL string fails parsing, fetch
returns an Error carrying the parse failure's description and no URL
context, and the client state is returned untouched: no cookie injection
and no policy override happened, and the conclusion holds for every
transport oracle, so no network call is issued. -/
theorem C4_url_parse_failure (env : Env) (st : ClientState) (url msg : String)
    (options : Option FetchOptions)
    (h : env.parseUrl url = Except.error msg) :
    fetch env st url options = (st, Except.error ⟨Option.none, msg⟩) := by
  simp only [fetch, h, Error.from_std_error]

/-- A concrete run of the parse-failure path of fetch. -/
theorem C4_url_parse_failure_witness :
    wEnv.parseUrl "nota url" = Except.error "relative URL without a base" ∧
    fetch wEnv ⟨wJar, RedirectPolicy.none⟩ "nota url" Option.none =
      (⟨wJar, RedirectPolicy.none⟩,
        Except.error ⟨Option.none, "relative URL without a base"⟩) :=
  ⟨rfl, C4_url_parse_failure wEnv ⟨wJar, RedirectPolicy.none⟩ "nota url"
    "relative URL without a base" Option.none rfl⟩

/-- Claim C9: with the options argument entirely absent, fetch issues the
request with method GET and decodes the response in binary mode; the serde
default for a missing method field is GET as well. -/
theorem C9_no_options_defaults (env : Env) (st : ClientState) (url purl : String)
    (hp : env.parseUrl url = Except.ok purl) :
    fetch env st url Option.none =
      (st, proxy st.jar PayloadType.binary
        (send env.trans st.policy ⟨"GET", purl, Option.none, Option.none⟩)) ∧
    default_method = "GET" :=
  ⟨fetch_none_eq env st url purl hp, rfl⟩

/-- A concrete run of the options-absent path: a GET in binary mode. -/
theorem C9_no_options_defaults_witness :
    wEnv.parseUrl "http://e/" = Except.ok "http://e/" ∧
    fetch wEnv ⟨[], RedirectPolicy.none⟩ "http://e/" Option.none =
      (⟨[], RedirectPolicy.none⟩,
        Except.ok ⟨"http://e/", 200, [], [], Option.some (Body.binary [104, 105])⟩) := by
  refine ⟨rfl, ?_⟩
  rw [(C9_no_options_defaults wEnv ⟨[], RedirectPolicy.none⟩ "http://e/" "http://e/" rfl).1]
  rfl

/-- Claim C2: every fetch that returns a successful Response reports as its
cookies field the (name, value) pairs of the whole jar left on the client:
every cookie known to the jar appears, whatever its domain or path, with no
filtering by the requested URL. -/
theorem C2_jar_snapshot (env : Env) (st : ClientState) (url : String)
    (options : Option FetchOptions) (st' : ClientState) (resp : Response)
    (h : fetch env st url options = (st', Except.ok resp)) :
    resp.cookies = st'.jar.map (fun c => (c.name, c.value)) ∧
    ∀ c ∈ st'.jar, (c.name, c.value) ∈ resp.cookies := by
  cases hp : env.parseUrl url with
  | error msg => simp [fetch, hp, Error.from_std_error] at h
  | ok purl =>
    cases options with
    | none =>
      rw [fetch_none_eq env st url purl hp] at h
      injection h with h1 h2
      subst h1
      have hc := proxy_ok_cookies _ _ _ _ h2
      refine ⟨hc, fun c hcm => ?_⟩
      rw [hc]
      exact List.mem_map_of_mem _ hcm
    | some opts =>
      cases hi : injectResult env.insertRaw st.jar purl opts.cookies with
      | error p =>
        obtain ⟨jar', msg⟩ := p
        rw [fetch_inject_error_eq env st url purl opts jar' msg hp hi] at h
        injection h with h1 h2
        exact Except.noConfusion h2
      | ok jar' =>
        rw [fetch_some_eq env st url purl opts jar' hp hi] at h
        injection h with h1 h2
        subst h1
        have hc := proxy_ok_cookies _ _ _ _ h2
        refine ⟨hc, fun c hcm => ?_⟩
        rw [hc]
        exact List.mem_map_of_mem _ hcm

/-- A concrete successful fetch whose snapshot exposes a cookie whose
domain (other.example) is unrelated to the requested URL. -/
theorem C2_jar_snapshot_witness :
    fetch wEnv ⟨wJar, RedirectPolicy.none⟩ "http://e/" Option.none =
      (⟨wJar, RedirectPolicy.none⟩,
        Except.ok ⟨"http://e/", 200, [], [("sid", "42")], Option.some (Body.binary [104, 105])⟩) ∧
    ([("sid", "42")] : List (String × String)) = wJar.map (fun c => (c.name, c.value)) :=
  ⟨rfl,
    (C2_jar_snapshot wEnv ⟨wJar, RedirectPolicy.none⟩ "http://e/" Option.none
      ⟨wJar, RedirectPolicy.none⟩
      ⟨"http://e/", 200, [], [("sid", "42")], Option.some (Body.binary [104, 105])⟩ rfl).1⟩

/-- Claim C3: every fetch requesting the discard decoding mode that
returns a successful Response returns it with no body, whatever the
transport produced as payload. -/
theorem C3_discard_absent_body (env : Env) (st : ClientState) (url : String)
    (opts : FetchOptions) (st' : ClientState) (resp : Response)
    (hrt : opts.responseType = PayloadType.discard)
    (h : fetch env st url (Option.some opts) = (st', Except.ok resp)) :
    resp.body = Option.none := by
  cases hp : env.parseUrl url with
  | error msg => simp [fetch, hp, Error.from_std_error] at h
  | ok purl =>
    cases hi : injectResult env.insertRaw st.jar purl opts.cookies with
    | error p =>
      obtain ⟨jar', msg⟩ := p
      rw [fetch_inject_error_eq env st url purl opts jar' msg hp hi] at h
      injection h with h1 h2
      exact Except.noConfusion h2
    | ok jar' =>
      rw [fetch_some_eq env st url purl opts jar' hp hi] at h
      injection h with h1 h2
      rw [hrt] at h2
      exact proxy_discard_no_body _ _ _ h2

/-- Claim C1: when one of the explicitly injected cookies fails insertion,
fetch returns an Error before any network call is made — the outcome is the
same for every transport oracle — and every injection applied before the
failing one remains in the jar: the state's jar is exactly the jar produced
by the successful prefix of insertions, with no rollback. -/
theorem C1_injection_failure (env : Env) (st : ClientState) (url purl : String)
    (opts : FetchOptions) (cs : List (String × String)) (jar' : List Cookie) (msg : String)
    (hp : env.parseUrl url = Except.ok purl)
    (hcs : opts.cookies = Option.some cs)
    (herr : injectCookies env.insertRaw st.jar purl cs = Except.error (jar', msg)) :
    fetch env st url (Option.some opts) =
      (⟨jar', st.policy⟩, Except.error ⟨Option.none, msg⟩) ∧
    (∀ trans₂ : Request → Nat → Except TransportError HttpResp,
      fetch ⟨env.parseUrl, env.insertRaw, trans₂⟩ st url (Option.some opts) =
        fetch env st url (Option.some opts)) ∧
    ∃ k, ∃ hk : k < cs.length,
      injectCookies env.insertRaw st.jar purl (cs.take k) = Except.ok jar' ∧
      env.insertRaw jar' (cs.get ⟨k, hk⟩).1 (cs.get ⟨k, hk⟩).2 purl = Except.error msg := by
  have hi : injectResult env.insertRaw st.jar purl opts.cookies = Except.error (jar', msg) := by
    rw [hcs]
    exact herr
  refine ⟨fetch_inject_error_eq env st url purl opts jar' msg hp hi, ?_, ?_⟩
  · intro trans₂
    rw [fetch_inject_error_eq env st url purl opts jar' msg hp hi]
    exact fetch_inject_error_eq ⟨env.parseUrl, env.insertRaw, trans₂⟩ st url purl opts jar' msg hp hi
  · exact injectCookies_error_split env.insertRaw purl cs st.jar jar' msg herr

/-- A concrete injection failure: the first cookie is inserted, the second
is rejected; fetch errors out with the first cookie still in the jar. -/
theorem C1_injection_failure_witness :
    injectCookies wEnv.insertRaw [] "http://e/" [("good", "1"), ("bad", "2"), ("also", "3")] =
      Except.error ([⟨"good", "1", "example.com", "/"⟩], "cookie domain mismatch") ∧
    fetch wEnv ⟨[], RedirectPolicy.none⟩ "http://e/" (Option.some wOptsInject) =
      (⟨[⟨"good", "1", "example.com", "/"⟩], RedirectPolicy.none⟩,
        Except.error ⟨Option.none, "cookie domain mismatch"⟩) :=
  ⟨rfl,
    (C1_injection_failure wEnv ⟨[], RedirectPolicy.none⟩ "http://e/" "http://e/" wOptsInject
      [("good", "1"), ("bad", "2"), ("also", "3")]
      [⟨"good", "1", "example.com", "/"⟩] "cookie domain mismatch" rfl rfl rfl).1⟩

/-- Claim C5: when the transport exchange fails, fetch returns an Error
whose URL context is the failing request's URL as known to the transport
error and whose message is the underlying failure's description; at the
send layer a failing hop's error is returned as-is, with no retry,
whatever the policy and remaining hop budget. -/
theorem C5_transport_failure (env : Env) (st : ClientState) (url purl : String)
    (opts : FetchOptions) (jar' : List Cookie) (e : TransportError)
    (hp : env.parseUrl url = Except.ok purl)
    (hi : injectResult env.insertRaw st.jar purl opts.cookies = Except.ok jar')
    (hfail : env.trans (fetchReq opts purl) 0 = Except.error e) :
    fetch env st url (Option.some opts) =
      (⟨jar', fetchPolicy st opts⟩, Except.error ⟨e.url, e.message⟩) ∧
    (∀ (trans₂ : Request → Nat → Except TransportError HttpResp)
        (policy₂ : RedirectPolicy) (req₂ : Request) (rem hop : Nat) (e₂ : TransportError),
      trans₂ req₂ hop = Except.error e₂ →
      sendHops trans₂ policy₂ req₂ rem hop = Except.error e₂) := by
  constructor
  · rw [fetch_some_eq env st url purl opts jar' hp hi]
    have hsend : send env.trans (fetchPolicy st opts) (fetchReq opts purl) = Except.error e := by
      unfold send sendHops
      rw [hfail]
    rw [hsend, proxy_error_eq]
  · intro trans₂ policy₂ req₂ rem hop e₂ h₂
    unfold sendHops
    rw [h₂]

/-- A concrete transport failure surfacing as an Error with the offending
URL and the failure description. -/
theorem C5_transport_failure_witness :
    wEnvFail.trans (fetchReq wOptsBin "http://e/") 0 = Except.error wErr ∧
    fetch wEnvFail ⟨[], RedirectPolicy.none⟩ "http://e/" (Option.some wOptsBin) =
      (⟨[], RedirectPolicy.none⟩,
        Except.error ⟨Option.some "http://e/", "connection refused"⟩) :=
  ⟨rfl,
    (C5_transport_failure wEnvFail ⟨[], RedirectPolicy.none⟩ "http://e/" "http://e/"
      wOptsBin [] wErr rfl rfl rfl).1⟩

/-- Claim C6: in text mode, an otherwise-successful exchange yields the
body decoded as a character string; if decoding fails, fetch returns an
Error built from the decode failure — reported after the exchange itself
succeeded. -/
theorem C6_text_decode (env : Env) (st : ClientState) (url purl : String)
    (opts : FetchOptions) (jar' : List Cookie) (r : HttpResp)
    (hp : env.parseUrl url = Except.ok purl)
    (hi : injectResult env.insertRaw st.jar purl opts.cookies = Except.ok jar')
    (hrt : opts.responseType = PayloadType.text)
    (hsend : send env.trans (fetchPolicy st opts) (fetchReq opts purl) = Except.ok r) :
    (∀ s : String, r.textResult = Except.ok s →
      fetch env st url (Option.some opts) =
        (⟨jar', fetchPolicy st opts⟩,
          Except.ok ⟨r.url, r.status, r.headers,
            jar'.map (fun c => (c.name, c.value)), Option.some (Body.text s)⟩)) ∧
    (∀ e : TransportError, r.textResult = Except.error e →
      fetch env st url (Option.some opts) =
        (⟨jar', fetchPolicy st opts⟩, Except.error ⟨e.url, e.message⟩)) := by
  constructor
  · intro s hs
    rw [fetch_some_eq env st url purl opts jar' hp hi, hrt, hsend, proxy_text_ok jar' r s hs]
  · intro e he
    rw [fetch_some_eq env st url purl opts jar' hp hi, hrt, hsend, proxy_text_error jar' r e he]

/-- A concrete text-mode fetch decoding to a string, and one whose body
fails to decode and surfaces as an Error after a successful exchange. -/
theorem C6_text_decode_witness :
    wResp.textResult = Except.ok "hi" ∧
    fetch wEnv ⟨[], RedirectPolicy.none⟩ "http://e/" (Option.some wOptsText) =
      (⟨[], RedirectPolicy.none⟩,
        Except.ok ⟨"http://e/", 200, [], [], Option.some (Body.text "hi")⟩) ∧
    wRespBad.textResult = Except.error wDecodeErr ∧
    fetch wEnvBad ⟨[], RedirectPolicy.none⟩ "http://e/" (Option.some wOptsText) =
      (⟨[], RedirectPolicy.none⟩,
        Except.error ⟨Option.some "http://e/", "invalid utf-8"⟩) :=
  ⟨rfl,
    (C6_text_decode wEnv ⟨[], RedirectPolicy.none⟩ "http://e/" "http://e/" wOptsText []
      wResp rfl rfl rfl rfl).1 "hi" rfl,
    rfl,
    (C6_text_decode wEnvBad ⟨[], RedirectPolicy.none⟩ "http://e/" "http://e/" wOptsText []
      wRespBad rfl rfl rfl rfl).2 wDecodeErr rfl⟩

/-- A concrete discard-mode fetch: the server's payload is present and
readable, yet the response body is absent. -/
theorem C3_discard_absent_body_witness :
    wOptsDiscard.responseType = PayloadType.discard ∧
    fetch wEnv ⟨[], RedirectPolicy.none⟩ "http://e/" (Option.some wOptsDiscard) =
      (⟨[], RedirectPolicy.none⟩,
        Except.ok ⟨"http://e/", 200, [], [], Option.none⟩) ∧
    (⟨"http://e/", 200, [], [], Option.none⟩ : Response).body = Option.none :=
  ⟨rfl, rfl,
    C3_discard_absent_body wEnv ⟨[], RedirectPolicy.none⟩ "http://e/" wOptsDiscard
      ⟨[], RedirectPolicy.none⟩ ⟨"http://e/", 200, [], [], Option.none⟩ rfl rfl⟩

/-- Claim C7: with the follow-none redirect override, a 3xx reply from the
server is returned as-is as a successful Response whose status stays in
300-399, neither followed nor turned into an error. -/
theorem C7_redirect_none_3xx (env : Env) (st : ClientState) (url purl : String)
    (opts : FetchOptions) (jar' : List Cookie) (r : HttpResp)
    (hp : env.parseUrl url = Except.ok purl)
    (hi : injectResult env.insertRaw st.jar purl opts.cookies = Except.ok jar')
    (hred : opts.redirect = Option.some Redirect.none)
    (htrans : env.trans (fetchReq opts purl) 0 = Except.ok r)
    (h3 : 300 ≤ r.status) (h3' : r.status ≤ 399)
    (hread : readOk opts.responseType r) :
    ∃ resp : Response,
      fetch env st url (Option.some opts) =
        (⟨jar', RedirectPolicy.none⟩, Except.ok resp) ∧
      resp.status = r.status ∧ resp.url = r.url ∧
      300 ≤ resp.status ∧ resp.status ≤ 399 := by
  have hpol : fetchPolicy st opts = RedirectPolicy.none := by
    simp [fetchPolicy, hred, interpRedirect]
  have hsend : send env.trans RedirectPolicy.none (fetchReq opts purl) = Except.ok r := by
    unfold send sendHops
    rw [htrans]
    simp
  rw [fetch_some_eq env st url purl opts jar' hp hi, hpol, hsend]
  cases hrt : opts.responseType with
  | binary =>
    rw [hrt] at hread
    obtain ⟨v, hv⟩ := hread
    exact ⟨⟨r.url, r.status, r.headers, jar'.map (fun c => (c.name, c.value)),
        Option.some (Body.binary v)⟩,
      by rw [proxy_binary_ok jar' r v hv], rfl, rfl, h3, h3'⟩
  | text =>
    rw [hrt] at hread
    obtain ⟨s, hs⟩ := hread
    exact ⟨⟨r.url, r.status, r.headers, jar'.map (fun c => (c.name, c.value)),
        Option.some (Body.text s)⟩,
      by rw [proxy_text_ok jar' r s hs], rfl, rfl, h3, h3'⟩
  | discard =>
    exact ⟨⟨r.url, r.status, r.headers, jar'.map (fun c => (c.name, c.value)),
        Option.none⟩,
      by rw [proxy_discard_ok jar' r], rfl, rfl, h3, h3'⟩

/-- A concrete follow-none fetch against a 302-replying server: the 302
comes back as a success. -/
theorem C7_redirect_none_3xx_witness :
    (300 ≤ wResp3xx.status ∧ wResp3xx.status ≤ 399) ∧
    ∃ resp : Response,
      fetch wEnv3 ⟨[], RedirectPolicy.limited 10⟩ "http://e/" (Option.some wOptsNoRedirect) =
        (⟨[], RedirectPolicy.none⟩, Except.ok resp) ∧
      resp.status = wResp3xx.status ∧ resp.url = wResp3xx.url ∧
      300 ≤ resp.status ∧ resp.status ≤ 399 :=
  ⟨⟨by decide, by decide⟩,
    C7_redirect_none_3xx wEnv3 ⟨[], RedirectPolicy.limited 10⟩ "http://e/" "http://e/"
      wOptsNoRedirect [] wResp3xx rfl rfl rfl rfl (by decide) (by decide) trivial⟩

/-- Claim C10: a redirect override written by a fetch stays in the client's
policy slot after that fetch completes (no reset to a default); a fetch
without a redirect option leaves the slot unchanged and issues its exchange
under the slot's existing policy — so a subsequent fetch on the same client
with no redirect option runs under the previous fetch's override. -/
theorem C10_policy_persistence (env : Env) (st : ClientState) (url purl : String)
    (opts : FetchOptions) (jar' : List Cookie)
    (hp : env.parseUrl url = Except.ok purl)
    (hi : injectResult env.insertRaw st.jar purl opts.cookies = Except.ok jar') :
    (∀ r : Redirect, opts.redirect = Option.some r →
      (fetch env st url (Option.some opts)).1.policy = interpRedirect r) ∧
    (opts.redirect = Option.none →
      (fetch env st url (Option.some opts)).1.policy = st.policy ∧
      (fetch env st url (Option.some opts)).2 =
        proxy jar' opts.responseType (send env.trans st.policy (fetchReq opts purl))) ∧
    (∀ r : Redirect, opts.redirect = Option.some r →
      ∀ (env₂ : Env) (url₂ purl₂ : String) (opts₂ : FetchOptions) (jar₂ : List Cookie),
        opts₂.redirect = Option.none →
        env₂.parseUrl url₂ = Except.ok purl₂ →
        injectResult env₂.insertRaw (fetch env st url (Option.some opts)).1.jar purl₂
          opts₂.cookies = Except.ok jar₂ →
        fetch env₂ (fetch env st url (Option.some opts)).1 url₂ (Option.some opts₂) =
          (⟨jar₂, interpRedirect r⟩,
            proxy jar₂ opts₂.responseType
              (send env₂.trans (interpRedirect r) (fetchReq opts₂ purl₂)))) := by
  have F := fetch_some_eq env st url purl opts jar' hp hi
  refine ⟨?_, ?_, ?_⟩
  · intro r hr
    rw [F]
    simp [fetchPolicy, hr]
  · intro hr
    rw [F]
    constructor
    · simp [fetchPolicy, hr]
    · simp [fetchPolicy, hr]
  · intro r hr env₂ url₂ purl₂ opts₂ jar₂ hr₂ hp₂ hi₂
    have h1 : (fetch env st url (Option.some opts)).1.policy = interpRedirect r := by
      rw [F]
      simp [fetchPolicy, hr]
    rw [fetch_some_eq env₂ (fetch env st url (Option.some opts)).1 url₂ purl₂ opts₂ jar₂ hp₂ hi₂]
    simp only [fetchPolicy, hr₂]
    rw [h1]

/-- A concrete pair of policy-slot observations: a follow-none override
persists in the final client state, and a fetch without a redirect option
leaves the client's limited-10 policy in place. -/
theorem C10_policy_persistence_witness :
    (fetch wEnv ⟨[], RedirectPolicy.limited 5⟩ "http://e/"
        (Option.some wOptsNoRedirect)).1.policy = interpRedirect Redirect.none ∧
    (fetch wEnv ⟨[], RedirectPolicy.limited 5⟩ "http://e/"
        (Option.some wOptsBin)).1.policy = RedirectPolicy.limited 5 :=
  ⟨(C10_policy_persistence wEnv ⟨[], RedirectPolicy.limited 5⟩ "http://e/" "http://e/"
      wOptsNoRedirect [] rfl rfl).1 Redirect.none rfl,
    ((C10_policy_persistence wEnv ⟨[], RedirectPolicy.limited 5⟩ "http://e/" "http://e/"
      wOptsBin [] rfl rfl).2.1 rfl).1⟩

/-! ## Pool lemmas -/

/-- Removing a holder's entry reorders the held list by at most pulling
that one entry to the front. -/
theorem removeHolder_perm :
    ∀ (l : List (Nat × Nat)) (caller c : Nat) (l' : List (Nat × Nat)),
      removeHolder l caller = Option.some (c, l') →
      l.Perm ((caller, c) :: l')
  | [], caller, c, l', h => by simp [removeHolder] at h
  | (a, b) :: rest, caller, c, l', h => by
    by_cases hac : a = caller
    · subst hac
      simp only [removeHolder, if_pos rfl] at h
      injection h with hpair
      injection hpair with hc hrest
      subst hc
      subst hrest
      exact List.Perm.refl _
    · simp only [removeHolder, if_neg hac] at h
      cases hr : removeHolder rest caller with
      | none =>
        rw [hr] at h
        exact Option.noConfusion h
      | some p =>
        obtain ⟨c₀, rest'⟩ := p
        rw [hr] at h
        injection h with hpair
        injection hpair with hc hl
        subst hc
        subst hl
        have ih := removeHolder_perm rest caller c₀ rest' hr
        exact (List.Perm.cons (a, b) ih).trans (List.Perm.swap (caller, c₀) (a, b) rest')

/-- Acquisition preserves pool sanity when the acquiring caller is fresh. -/
theorem poolWF_acquire (s : PoolState) (caller : Nat) (hWF : poolWF s)
    (hfresh : caller ∉ s.held.map Prod.fst ++ s.waiting) :
    poolWF (acquireStep s caller) := by
  obtain ⟨h1, h2⟩ := hWF
  cases hf : s.free with
  | nil =>
    rw [hf] at h1
    constructor
    · simpa [acquireStep, hf] using h1
    · simp only [acquireStep, hf]
      rw [← List.append_assoc]
      exact List.Perm.nodup List.perm_append_comm (List.nodup_cons.mpr ⟨hfresh, h2⟩)
  | cons c rest =>
    rw [hf] at h1
    constructor
    · simp only [acquireStep, hf, List.map_cons, List.cons_append]
      exact List.Perm.nodup List.perm_middle h1
    · simp only [acquireStep, hf, List.map_cons, List.cons_append]
      exact List.nodup_cons.mpr ⟨hfresh, h2⟩

/-- Release preserves pool sanity. -/
theorem poolWF_release (s : PoolState) (caller : Nat) (hWF : poolWF s) :
    poolWF (releaseStep s caller) := by
  obtain ⟨h1, h2⟩ := hWF
  cases hrm : removeHolder s.held caller with
  | none => simpa [releaseStep, hrm] using ⟨h1, h2⟩
  | some p =>
    obtain ⟨c, held'⟩ := p
    have hperm := removeHolder_perm s.held caller c held' hrm
    have hsnd : (s.held.map Prod.snd ++ s.free).Perm
        (c :: (held'.map Prod.snd ++ s.free)) :=
      List.Perm.append_right s.free (hperm.map Prod.snd)
    have hfst : (s.held.map Prod.fst ++ s.waiting).Perm
        (caller :: (held'.map Prod.fst ++ s.waiting)) :=
      List.Perm.append_right s.waiting (hperm.map Prod.fst)
    have h1' : (c :: (held'.map Prod.snd ++ s.free)).Nodup := hsnd.nodup h1
    have h2' : (caller :: (held'.map Prod.fst ++ s.waiting)).Nodup := hfst.nodup h2
    have h2t : (held'.map Prod.fst ++ s.waiting).Nodup := (List.nodup_cons.mp h2').2
    cases hw : s.waiting with
    | nil =>
      rw [hw] at h2t
      constructor
      · simp only [releaseStep, hrm, hw]
        exact List.Perm.nodup List.perm_middle.symm h1'
      · simpa [releaseStep, hrm, hw] using h2t
    | cons w ws =>
      rw [hw] at h2t
      constructor
      · simp only [releaseStep, hrm, hw, List.map_cons, List.cons_append]
        exact h1'
      · simp only [releaseStep, hrm, hw, List.map_cons, List.cons_append]
        exact List.Perm.nodup List.perm_middle h2t

/-- Claim C8: a sane pool never has the same client held by two callers
(and acquire/release keep it sane, so a client handed out is not handed
out again until released); acquisition with no free client appends the
caller at the tail of the wait queue, and release hands the freed client
to the head waiter — first-come-first-served FIFO order. -/
theorem C8_pool_exclusive_fifo (s : PoolState) (hWF : poolWF s) :
    (∀ a b c, (a, c) ∈ s.held → (b, c) ∈ s.held → a = b) ∧
    (∀ caller, caller ∉ s.held.map Prod.fst ++ s.waiting →
      poolWF (acquireStep s caller)) ∧
    (∀ caller, poolWF (releaseStep s caller)) ∧
    (∀ caller, s.free = [] →
      (acquireStep s caller).waiting = s.waiting ++ [caller]) ∧
    (∀ caller c held', removeHolder s.held caller = Option.some (c, held') →
      ∀ w ws, s.waiting = w :: ws →
        releaseStep s caller = ⟨s.free, ws, (w, c) :: held'⟩) := by
  refine ⟨?_, ?_, ?_, ?_, ?_⟩
  · intro a b c ha hb
    have hnd : (s.held.map Prod.snd).Nodup := (List.nodup_append.mp hWF.1).1
    have := List.inj_on_of_nodup_map hnd ha hb (by rfl)
    exact congrArg Prod.fst this
  · intro caller hfresh
    exact poolWF_acquire s caller hWF hfresh
  · intro caller
    exact poolWF_release s caller hWF
  · intro caller hfree
    simp [acquireStep, hfree]
  · intro caller c held' hrm w ws hw
    simp [releaseStep, hrm, hw]

/-- A concrete pool run: with caller 7 waiting, caller 1 releasing client 2
hands it to 7 (head of the queue), and a caller acquiring with no free
client is appended at the tail. -/
theorem C8_pool_exclusive_fifo_witness :
    poolWF ⟨[3], [7], [(1, 2)]⟩ ∧
    releaseStep ⟨[3], [7], [(1, 2)]⟩ 1 = ⟨[3], [], [(7, 2)]⟩ ∧
    poolWF ⟨[], [7], [(1, 2)]⟩ ∧
    (acquireStep ⟨[], [7], [(1, 2)]⟩ 9).waiting = [7] ++ [9] :=
  ⟨by unfold poolWF; decide,
    (C8_pool_exclusive_fifo ⟨[3], [7], [(1, 2)]⟩
      (by unfold poolWF; decide)).2.2.2.2 1 2 [] rfl 7 [] rfl,
    by unfold poolWF; decide,
    (C8_pool_exclusive_fifo ⟨[], [7], [(1, 2)]⟩
      (by unfold poolWF; decide)).2.2.2.1 9 rfl⟩

end CookieFetch
